import Mathlib

/-!
# Search-augmented assistant loop (`src/main.go`): embedding and properties

The Go program is embedded shallowly.

* A Go `string` is a sequence of bytes, `GoString := List UInt8`; `len(s)` is the
  number of bytes and `s[:k]` is a byte slice.  Every length below is a byte count.
* A Go `error` is a value of `GoError`; `fmt.Errorf` with `%w` builds a `wrapError`,
  without `%w` an `errorString`.
* Calls that leave the program (the HTTP client, the HTML parser, the language
  model, the search tool) take their behaviour from explicit parameters, and each
  function records the calls it makes, in order, next to its result.
* Code that can panic (`s[:maxLength-3]`) returns `Option`.
-/

set_option autoImplicit false
set_option maxRecDepth 4096

namespace AIPoc

/-! ## Strings -/

/-- A Go string: an immutable sequence of bytes. -/
abbrev GoString := List UInt8

/-- A string literal of the source file (Go source text is UTF-8). -/
def lit (s : String) : GoString := s.toUTF8.data.toList

/-- Go `strings.HasPrefix(s, p)`. -/
def hasPrefix : GoString → GoString → Bool
  | _, [] => true
  | [], _ :: _ => false
  | c :: s, d :: p => c == d && hasPrefix s p

/-- Go `strings.Contains(s, substr)`: `substr` occurs at some offset of `s`. -/
def stringsContains : GoString → GoString → Bool
  | [], sub => hasPrefix [] sub
  | c :: s, sub => hasPrefix (c :: s) sub || stringsContains s sub

/-- Go `strings.Join(elems, sep)`. -/
def stringsJoin : List GoString → GoString → GoString
  | [], _ => []
  | [e], _ => e
  | e :: f :: rest, sep => e ++ sep ++ stringsJoin (f :: rest) sep

/-- The decimal digits of `n`, most significant first, pushed in front of `acc`;
`fuel` bounds the number of digits produced. -/
def digitsInto : Nat → Nat → GoString → GoString
  | 0, _, acc => acc
  | fuel + 1, n, acc =>
    let acc1 := UInt8.ofNat (48 + n % 10) :: acc
    if n / 10 = 0 then acc1 else digitsInto fuel (n / 10) acc1

/-- The verb `%d` of package `fmt` on a non-negative integer. -/
def fmtNat (n : Nat) : GoString := digitsInto (n + 1) n []

/-- The verb `%d` of package `fmt` on an `int`. -/
def fmtInt : Int → GoString
  | Int.ofNat n => fmtNat n
  | Int.negSucc n => UInt8.ofNat 45 :: fmtNat (n + 1)

/-! ## Errors -/

/-- The Go `error` values the program meets. -/
inductive GoError where
  /-- The sentinel `context.DeadlineExceeded`. -/
  | deadlineExceeded : GoError
  /-- An error that only carries a message (`errors.New`, `fmt.Errorf` without `%w`,
  and any error of a library whose type the program never inspects). -/
  | errorString (msg : GoString) : GoError
  /-- The `*fmt.wrapError` built by `fmt.Errorf` with `%w`: the formatted message
  and the wrapped error. -/
  | wrapError (msg : GoString) (err : GoError) : GoError
  deriving DecidableEq, Repr

namespace GoError

/-- The method `Error()`. -/
def Error : GoError → GoString
  | deadlineExceeded => lit "context deadline exceeded"
  | errorString msg => msg
  | wrapError msg _ => msg

/-- The comparison `err == context.DeadlineExceeded` on interface values: true
only when `err` is the sentinel itself; a `*fmt.wrapError` around it has another
dynamic type and compares unequal. -/
def eqDeadlineExceeded : GoError → Bool
  | deadlineExceeded => true
  | errorString _ => false
  | wrapError _ _ => false

end GoError

/-- The call `fmt.Errorf(format, err)` whose format is `pre` followed by `%w`. -/
def errorfW (pre : GoString) (err : GoError) : GoError :=
  GoError.wrapError (pre ++ err.Error) err

/-- The call `fmt.Errorf(format, ...)` with no `%w`, already formatted to `msg`. -/
def errorf (msg : GoString) : GoError := GoError.errorString msg

deriving instance DecidableEq for Except

/-! ## `truncateString` -/

/-- Source `truncateString` (main.go 228-233).  `none` is the run-time panic of the
slice expression `s[:maxLength-3]` when `maxLength-3` is negative. -/
def truncateString (s : GoString) (maxLength : Int) : Option GoString :=
  if (s.length : Int) ≤ maxLength then some s
  else if maxLength - 3 < 0 then none
  else some (s.take (maxLength - 3).toNat ++ lit "...")

/-! ## `GenerateFromLLM` -/

/-- What one call `llm.Call(ctx, prompt, options...)` does: the chunks it hands to
the streaming callback, in order, and the pair `(completion, err)` it returns. -/
structure LLMCall where
  chunks : List GoString
  completion : GoString
  err : Option GoError

/-- The local variables `fullResponse` and `isStreaming` of `GenerateFromLLM`. -/
structure GenState where
  fullResponse : GoString
  isStreaming : Bool

/-- The streaming callback of `GenerateFromLLM` (main.go 47-52) on one chunk. -/
def streamingFunc (st : GenState) (chunk : GoString) : GenState :=
  { fullResponse := st.fullResponse ++ chunk, isStreaming := true }

/-- Source `GenerateFromLLM` (main.go 40-63); `llm` is the behaviour of the
backend under the context of the call. -/
def GenerateFromLLM (llm : GoString → LLMCall) (prompt : GoString) :
    Except GoError GoString :=
  let call := llm prompt
  let st := call.chunks.foldl streamingFunc { fullResponse := [], isStreaming := false }
  match call.err with
  | some err => Except.error (errorfW (lit "LLM call failed: ") err)
  | none =>
    let st1 := if !st.isStreaming then
        { st with fullResponse := st.fullResponse ++ call.completion } else st
    Except.ok st1.fullResponse

/-! ## `performSearchQuery` -/

/-- One element matched by `.result__body`, reduced to what the callback asks of
it.  `none` stands for a sub-query that matches nothing. -/
structure Selection where
  /-- Text of the elements matching `.result__title`. -/
  title : Option GoString
  /-- Attribute `href` of the first element matching `.result__title a`. -/
  href : Option GoString
  /-- Text of the elements matching `.result__snippet`. -/
  snippet : Option GoString

/-- The goquery method `Text()`: the empty string on an empty selection. -/
def Selection.text (sel : Option GoString) : GoString := sel.getD []

/-- The goquery method `Attr(name)` with its second result dropped (`link, _ :=`):
the empty string when the attribute is absent. -/
def Selection.attr (sel : Option GoString) : GoString := sel.getD []

/-- A parsed document, reduced to `doc.Find(".result__body")`: the matched
elements in document order. -/
structure Document where
  resultBodies : List Selection

/-- An HTTP response as `performSearchQuery` uses it: the status code and the
outcome of `ioutil.ReadAll(resp.Body)`. -/
structure HttpResponse where
  StatusCode : Int
  Body : Except GoError GoString

/-- The world outside `performSearchQuery`. -/
structure Web where
  /-- Library `url.QueryEscape`. -/
  QueryEscape : GoString → GoString
  /-- Error of `http.NewRequest("GET", url, nil)`, if any. -/
  NewRequest : GoString → Option GoError
  /-- Outcome of `client.Do(req)` for the request to `url`. -/
  Do : GoString → Except GoError HttpResponse
  /-- Outcome of `goquery.NewDocumentFromReader` on the body. -/
  NewDocumentFromReader : GoString → Except GoError Document

/-- The calls `performSearchQuery` makes to the outside, as recorded in a run. -/
inductive NetCall where
  | clientDo (url : GoString) : NetCall
  | readAll : NetCall
  | newDocument (body : GoString) : NetCall
  deriving DecidableEq, Repr

/-- A run of `performSearchQuery`: the outside calls in order, and the returned
pair `(string, error)` as an `Except`. -/
structure SearchRun where
  calls : List NetCall
  result : Except GoError GoString

/-- The `fmt.Sprintf` of main.go 110 on the three extracted texts. -/
def formatResult (title link snippet : GoString) : GoString :=
  lit "Title: " ++ title ++ lit "\nLink: " ++ link ++ lit "\nSnippet: " ++ snippet ++ lit "\n"

/-- The callback passed to `Each` (main.go 105-112): `results` is the captured
slice, `i` the index of the element `s`. -/
def eachCallback (results : List GoString) (i : Nat) (s : Selection) : List GoString :=
  if i < 5 then
    let title := Selection.text s.title
    let link := Selection.attr s.href
    let snippet := Selection.text s.snippet
    results ++ [formatResult title link snippet]
  else results

/-- The goquery method `Each`: calls `f` on every element with its index, in
order, starting at index `i`. -/
def eachFrom {σ : Type} (f : σ → Nat → Selection → σ) : Nat → List Selection → σ → σ
  | _, [], acc => acc
  | i, s :: rest, acc => eachFrom f (i + 1) rest (f acc i s)

/-- Source `performSearchQuery` (main.go 65-118). -/
def performSearchQuery (web : Web) (query : GoString) : SearchRun :=
  let searchQueryURL := lit "https://duckduckgo.com/html/?q=" ++ web.QueryEscape query
  match web.NewRequest searchQueryURL with
  | some err => ⟨[], Except.error (errorfW (lit "failed to create request: ") err)⟩
  | none =>
    match web.Do searchQueryURL with
    | Except.error err =>
      ⟨[NetCall.clientDo searchQueryURL],
        Except.error (errorfW (lit "failed to perform search: ") err)⟩
    | Except.ok resp =>
      if resp.StatusCode ≠ 200 then
        ⟨[NetCall.clientDo searchQueryURL],
          Except.error (errorf
            (lit "search request failed with status code: " ++ fmtInt resp.StatusCode))⟩
      else
        match resp.Body with
        | Except.error err =>
          ⟨[NetCall.clientDo searchQueryURL, NetCall.readAll],
            Except.error (errorfW (lit "failed to read response body: ") err)⟩
        | Except.ok body =>
          if stringsContains body (lit "CAPTCHA") then
            ⟨[NetCall.clientDo searchQueryURL, NetCall.readAll],
              Except.error (errorf (lit "CAPTCHA detected, unable to proceed"))⟩
          else
            match web.NewDocumentFromReader body with
            | Except.error err =>
              ⟨[NetCall.clientDo searchQueryURL, NetCall.readAll, NetCall.newDocument body],
                Except.error (errorfW (lit "failed to parse search results: ") err)⟩
            | Except.ok doc =>
              let results := eachFrom eachCallback 0 doc.resultBodies []
              if results.length = 0 then
                ⟨[NetCall.clientDo searchQueryURL, NetCall.readAll, NetCall.newDocument body],
                  Except.ok (lit "No results found.")⟩
              else
                ⟨[NetCall.clientDo searchQueryURL, NetCall.readAll, NetCall.newDocument body],
                  Except.ok (stringsJoin results (lit "\n"))⟩

/-- The `Func` of the tool built by `createSearchAgent` (main.go 125-135). -/
def createSearchAgent (web : Web) : GoString → Except GoError GoString :=
  fun query => (performSearchQuery web query).result

/-! ## The loop of `main` -/

/-- Source `ModelConfig` (main.go 17-20); a `time.Duration` is a count of
nanoseconds. -/
structure ModelConfig where
  Model : GoString
  TimeOut : Int

/-- The value `config` of `main` (main.go 140-143): two minutes. -/
def config : ModelConfig :=
  { Model := lit "llama3.1", TimeOut := 2 * 60 * 1000000000 }

/-- Library functions `main` relies on, taken as given. -/
structure Lib where
  /-- Library `strings.TrimSpace`. -/
  TrimSpace : GoString → GoString
  /-- Library `strings.ToLower`. -/
  ToLower : GoString → GoString
  /-- The verb `%v` on the float `d.Seconds()` of a duration `d`. -/
  fmtSeconds : Int → GoString

/-- What a turn does that is visible outside it, as recorded in order. -/
inductive Event where
  /-- A write to standard output (`fmt.Print`, `fmt.Println`, `fmt.Printf`). -/
  | print (s : GoString) : Event
  /-- The call `searchTool.Call(ctx, input)`. -/
  | searchCall (input : GoString) : Event
  /-- The call `llm.Call(ctx, prompt, ...)` made by `GenerateFromLLM`. -/
  | llmCall (prompt : GoString) : Event
  deriving DecidableEq, Repr

/-- The variable `userInput` after main.go 168-170. -/
def effectiveInput (history : List GoString) (userInput : GoString) : GoString :=
  if history.length > 0 then stringsJoin history (lit "\n") ++ lit "\n" ++ userInput
  else userInput

/-- The `fmt.Sprintf` of main.go 185-203. -/
def buildPrompt (historyText userInput searchResult : GoString) : GoString :=
  lit ("You are an AI assistant that uses search results to answer questions accurately. \n" ++
    "\t\tBase your answers on the provided search results and conversation history.\n" ++
    "\t\tIf the search results don\x27t contain relevant information, say so.\n" ++
    "\t\t\n" ++
    "\t\tConversation history:\n" ++
    "\t\t")
  ++ historyText ++
  lit ("\n" ++
    "\t\t\n" ++
    "\t\tCurrent question: ")
  ++ userInput ++
  lit ("\n" ++
    "\t\t\n" ++
    "\t\tSearch results:\n" ++
    "\t\t")
  ++ searchResult ++
  lit ("\n" ++
    "\t\t\n" ++
    "\t\tInstructions:\n" ++
    "\t\t1. Analyze the search results and conversation history carefully.\n" ++
    "\t\t2. Provide a comprehensive answer based on the information in the search results " ++
    "and relevant context from the conversation history.\n" ++
    "\t\t3. If the search results don\x27t contain relevant information to answer the question, " ++
    "state that clearly.\n" ++
    "\t\t4. Keep your answer concise and to the point.\n" ++
    "\t\t\n" ++
    "\t\tYour answer:")

/-- The line printed on a CAPTCHA search error (main.go 177). -/
def captchaLine : GoString :=
  lit "CAPTCHA detected. Please try again later or use a different IP.\n"

/-- The line printed on any other search error (main.go 179). -/
def searchFailedLine (err : GoError) : GoString :=
  lit "Search failed: " ++ err.Error ++ lit "\n"

/-- The line printed in the timeout branch (main.go 212). -/
def timeoutLine (lib : Lib) (cfg : ModelConfig) : GoString :=
  lit "Operation timed out after " ++ lib.fmtSeconds cfg.TimeOut ++ lit " seconds\n"

/-- The line printed in the generic completion-error branch (main.go 214). -/
def errorLine (err : GoError) : GoString :=
  lit "Error: " ++ err.Error ++ lit "\n"

/-- The history and the recorded events at the end of a turn. -/
structure TurnResult where
  events : List Event
  history : List GoString

/-- The body of the loop of `main` after the quit test (main.go 168-224), on the
trimmed input `userInput0`.  `none` is a panic inside `truncateString`. -/
def turn (lib : Lib) (cfg : ModelConfig) (searchTool : GoString → Except GoError GoString)
    (llm : GoString → LLMCall) (history : List GoString) (userInput0 : GoString) :
    Option TurnResult :=
  let userInput := effectiveInput history userInput0
  match searchTool userInput with
  | Except.error err =>
    if stringsContains err.Error (lit "CAPTCHA") then
      some ⟨[Event.searchCall userInput, Event.print captchaLine], history⟩
    else
      some ⟨[Event.searchCall userInput, Event.print (searchFailedLine err)], history⟩
  | Except.ok searchResult =>
    let prompt := buildPrompt (stringsJoin history (lit "\n")) userInput searchResult
    let pre := [Event.searchCall userInput, Event.print (lit "\nGenerating response...\n"),
      Event.llmCall prompt]
    match GenerateFromLLM llm prompt with
    | Except.error err =>
      if err.eqDeadlineExceeded then
        some ⟨pre ++ [Event.print (timeoutLine lib cfg)], history⟩
      else
        some ⟨pre ++ [Event.print (errorLine err)], history⟩
    | Except.ok response =>
      match truncateString userInput 100 with
      | none => none
      | some u =>
        let history1 := history ++ [lit "User: " ++ u]
        match truncateString response 200 with
        | none => none
        | some a =>
          let history2 := history1 ++ [lit "AI: " ++ a]
          let history3 :=
            if history2.length > 10 then history2.drop (history2.length - 10) else history2
          some ⟨pre ++ [Event.print (response ++ lit "\n")], history3⟩

/-- The prompt printed before each read (main.go 160). -/
def enterLine : GoString := lit "Enter your question (or \x27quit\x27 to exit): "

/-- One pass of the loop as the outside drives it: the line read from standard
input, and how the search tool and the language model behave during the pass. -/
structure Iteration where
  line : GoString
  searchTool : GoString → Except GoError GoString
  llm : GoString → LLMCall

/-- The state carried by the loop of `main`: the variable `history`, everything
recorded so far, and whether the loop was left through `break`. -/
structure LoopState where
  history : List GoString
  events : List Event
  exited : Bool

/-- The state at main.go 157: `var history []string`. -/
def initState : LoopState := { history := [], events := [], exited := false }

/-- The loop of `main` (main.go 159-225) over the passes `its`; it stops at the
quit command, and otherwise returns the state reached when `its` is used up. -/
def mainLoop (lib : Lib) (cfg : ModelConfig) : List Iteration → LoopState → Option LoopState
  | [], st => some st
  | it :: rest, st =>
    let events1 := st.events ++ [Event.print enterLine]
    let userInput := lib.TrimSpace it.line
    if lib.ToLower userInput = lit "quit" then
      some { history := st.history, events := events1, exited := true }
    else
      match turn lib cfg it.searchTool it.llm st.history userInput with
      | none => none
      | some r =>
        mainLoop lib cfg rest
          { history := r.history, events := events1 ++ r.events, exited := false }

/-! ## Auxiliary definitions for the statements and concrete inputs -/

/-- Reads a run of decimal digits back as a number. -/
def readNat (s : GoString) : Nat := s.foldl (fun v b => 10 * v + (b.toNat - 48)) 0

/-- The address `performSearchQuery` requests for `query` (main.go 66). -/
def searchQueryURL (web : Web) (query : GoString) : GoString :=
  lit "https://duckduckgo.com/html/?q=" ++ web.QueryEscape query

/-- The block `eachCallback` appends for one element. -/
def resultBlock (s : Selection) : GoString :=
  formatResult (s.title.getD []) (s.href.getD []) (s.snippet.getD [])

/-- A search endpoint that answers 403 with a CAPTCHA page. -/
def blockedWeb : Web :=
  { QueryEscape := fun q => q
    NewRequest := fun _ => none
    Do := fun _ => Except.ok ⟨403, Except.ok (lit "<html>CAPTCHA</html>")⟩
    NewDocumentFromReader := fun _ => Except.ok ⟨[]⟩ }

/-- A search endpoint that answers 200 with a CAPTCHA page. -/
def captchaWeb : Web :=
  { QueryEscape := fun q => q
    NewRequest := fun _ => none
    Do := fun _ => Except.ok ⟨200, Except.ok (lit "<html>CAPTCHA</html>")⟩
    NewDocumentFromReader := fun _ => Except.ok ⟨[]⟩ }

/-- A search endpoint that answers 500 with an empty body. -/
def failingWeb : Web :=
  { QueryEscape := fun q => q
    NewRequest := fun _ => none
    Do := fun _ => Except.ok ⟨500, Except.ok []⟩
    NewDocumentFromReader := fun _ => Except.ok ⟨[]⟩ }

/-- Six result elements; the second has no title, the third no link, the fourth
no snippet. -/
def sixResults : Document :=
  ⟨[⟨some (lit "T1"), some (lit "L1"), some (lit "S1")⟩,
    ⟨none, some (lit "L2"), some (lit "S2")⟩,
    ⟨some (lit "T3"), none, some (lit "S3")⟩,
    ⟨some (lit "T4"), some (lit "L4"), none⟩,
    ⟨some (lit "T5"), some (lit "L5"), some (lit "S5")⟩,
    ⟨some (lit "T6"), some (lit "L6"), some (lit "S6")⟩]⟩

/-- A search endpoint that answers 200 with a page holding `sixResults`. -/
def resultsWeb : Web :=
  { QueryEscape := fun q => q
    NewRequest := fun _ => none
    Do := fun _ => Except.ok ⟨200, Except.ok (lit "<html>results</html>")⟩
    NewDocumentFromReader := fun _ => Except.ok sixResults }

/-- The three events every turn with a successful search starts with. -/
def turnPrefix (history : List GoString) (userInput searchResult : GoString) : List Event :=
  [Event.searchCall (effectiveInput history userInput),
    Event.print (lit "\nGenerating response...\n"),
    Event.llmCall (buildPrompt (stringsJoin history (lit "\n"))
      (effectiveInput history userInput) searchResult)]

/-- The statement of main.go 221-223 on the extended history. -/
def keepLastTen (history : List GoString) : List GoString :=
  if history.length > 10 then history.drop (history.length - 10) else history

/-- Stand-ins for the library functions, for concrete runs. -/
def plainLib : Lib :=
  { TrimSpace := fun s => s, ToLower := fun s => s, fmtSeconds := fun _ => lit "120" }

/-- A search tool that always fails with a CAPTCHA error. -/
def captchaTool : GoString → Except GoError GoString :=
  fun _ => Except.error (GoError.errorString (lit "CAPTCHA detected, unable to proceed"))

/-- A search tool that always returns two hits. -/
def twoHitsTool : GoString → Except GoError GoString :=
  fun _ => Except.ok (lit "Title: a\nLink: b\nSnippet: c\n\nTitle: d\nLink: e\nSnippet: f\n")

/-- A backend that answers `Go is a language.` in one piece. -/
def goAnswer : GoString → LLMCall :=
  fun _ => { chunks := [], completion := lit "Go is a language.", err := none }

/-- A backend that streams `A`, then `B`, and also returns `AB`. -/
def streamAB : GoString → LLMCall :=
  fun _ => { chunks := [lit "A", lit "B"], completion := lit "AB", err := none }

/-- A backend whose call ends with `context.DeadlineExceeded`. -/
def timedOut : GoString → LLMCall :=
  fun _ => { chunks := [], completion := [], err := some GoError.deadlineExceeded }

/-- Ten stored entries: five earlier exchanges. -/
def fullHistory : List GoString :=
  [lit "User: q1", lit "AI: a1", lit "User: q2", lit "AI: a2", lit "User: q3", lit "AI: a3",
    lit "User: q4", lit "AI: a4", lit "User: q5", lit "AI: a5"]

/-- One pass in which the user types `What is Go?`, the search returns two hits
and the backend answers `Go is a language.`. -/
def goIteration : Iteration :=
  { line := lit "What is Go?\n", searchTool := twoHitsTool, llm := goAnswer }

/-- A line-trimming stand-in that drops one trailing newline. -/
def dropNewline (s : GoString) : GoString :=
  if s.getLast? = some (UInt8.ofNat 10) then s.dropLast else s

/-- Stand-ins for the library functions on plain ASCII lines. -/
def asciiLib : Lib :=
  { TrimSpace := dropNewline, ToLower := fun s => s, fmtSeconds := fun _ => lit "120" }

/-- Whether the byte `b` lies in the closed range from `lo` to `hi`. -/
def byteIn (lo hi : Nat) (b : UInt8) : Bool := decide (lo ≤ b.toNat) && decide (b.toNat ≤ hi)

/-- The number of bytes the first character of `s` occupies under UTF-8, as the
Go library `unicode/utf8` decodes it: a byte that starts no valid, complete
encoding is a character of width 1. -/
def runeWidth : GoString → Nat
  | [] => 0
  | c :: rest =>
    let n := c.toNat
    if n < 128 then 1
    else if 194 ≤ n ∧ n ≤ 223 then
      match rest with
      | c1 :: _ => if byteIn 128 191 c1 then 2 else 1
      | [] => 1
    else if 224 ≤ n ∧ n ≤ 239 then
      match rest with
      | c1 :: c2 :: _ =>
        if byteIn (if n = 224 then 160 else 128) (if n = 237 then 159 else 191) c1
          && byteIn 128 191 c2 then 3 else 1
      | _ => 1
    else if 240 ≤ n ∧ n ≤ 244 then
      match rest with
      | c1 :: c2 :: c3 :: _ =>
        if byteIn (if n = 240 then 144 else 128) (if n = 244 then 143 else 191) c1
          && byteIn 128 191 c2 && byteIn 128 191 c3 then 4 else 1
      | _ => 1
    else 1

/-- Counts the characters of `s`, one `runeWidth` at a time; `fuel` bounds the
number of characters counted. -/
def runeCountFuel : Nat → GoString → Nat
  | 0, _ => 0
  | _ + 1, [] => 0
  | fuel + 1, c :: rest => 1 + runeCountFuel fuel ((c :: rest).drop (runeWidth (c :: rest)))

/-- Library `utf8.RuneCountInString`: the number of characters of a Go string. -/
def runeCount (s : GoString) : Nat := runeCountFuel s.length s

/-- Sixty times the letter e with an acute accent: 60 characters, 120 bytes. -/
def accented : GoString := (List.replicate 60 (lit "é")).flatten

/-- The letter a, 101 times. -/
def longLine : GoString := List.replicate 101 (UInt8.ofNat 97)

/-- A search tool that returns hits for the query `User: hi`, `AI: hello`,
`What is Go?` (newline-separated) and fails on every other query. -/
def joinedOnlyTool : GoString → Except GoError GoString :=
  fun query =>
    if query = lit "User: hi\nAI: hello\nWhat is Go?" then Except.ok (lit "hits")
    else Except.error (GoError.errorString (lit "unexpected query"))

/-- One pass in which the user types `What is Go?` and the search tool is
`joinedOnlyTool`. -/
def joinedIteration : Iteration :=
  { line := lit "What is Go?\n", searchTool := joinedOnlyTool, llm := goAnswer }

/-! ## Theorems -/

theorem lit_ellipsis_length : (lit "...").length = 3 := by decide

theorem digitsInto_append (fuel n : Nat) (acc : GoString) :
    digitsInto fuel n acc = digitsInto fuel n [] ++ acc := by
  induction fuel generalizing n acc with
  | zero => simp [digitsInto]
  | succ f ih =>
    simp only [digitsInto]
    by_cases h : n / 10 = 0
    · simp [h]
    · simp only [h, if_false]
      rw [ih (n / 10) (UInt8.ofNat (48 + n % 10) :: acc), ih (n / 10) [UInt8.ofNat (48 + n % 10)]]
      simp

theorem digitsInto_fuel (f1 f2 n : Nat) (acc : GoString) (h1 : n < f1) (h2 : n < f2) :
    digitsInto f1 n acc = digitsInto f2 n acc := by
  induction f1 generalizing f2 n acc with
  | zero => omega
  | succ f ih =>
    cases f2 with
    | zero => omega
    | succ g =>
      simp only [digitsInto]
      by_cases h : n / 10 = 0
      · simp [h]
      · simp only [h, if_false]
        have : n / 10 < n := Nat.div_lt_self (by omega) (by omega)
        exact ih g (n / 10) _ (by omega) (by omega)

theorem fmtNat_small (n : Nat) (h : n < 10) : fmtNat n = [UInt8.ofNat (48 + n)] := by
  have h0 : n / 10 = 0 := by omega
  have h1 : n % 10 = n := by omega
  simp [fmtNat, digitsInto, h0, h1]

theorem fmtNat_large (n : Nat) (h : 10 ≤ n) :
    fmtNat n = fmtNat (n / 10) ++ [UInt8.ofNat (48 + n % 10)] := by
  have h0 : n / 10 ≠ 0 := by omega
  unfold fmtNat
  simp only [digitsInto, h0, if_false]
  rw [digitsInto_append]
  congr 1
  exact digitsInto_fuel n (n / 10 + 1) (n / 10) [] (by omega) (by omega)

theorem digit_toNat (d : Nat) (h : d < 10) : (UInt8.ofNat (48 + d)).toNat = 48 + d := by
  interval_cases d <;> rfl

theorem readNat_fmtNat (n : Nat) : readNat (fmtNat n) = n := by
  induction n using Nat.strong_induction_on with
  | _ n ih =>
    by_cases h : n < 10
    · rw [fmtNat_small n h]
      simp [readNat, digit_toNat n h]
    · rw [fmtNat_large n (by omega)]
      have hlt : n / 10 < n := Nat.div_lt_self (by omega) (by omega)
      have := ih (n / 10) hlt
      unfold readNat at this ⊢
      rw [List.foldl_append]
      simp only [List.foldl_cons, List.foldl_nil, this, digit_toNat (n % 10) (Nat.mod_lt _ (by omega))]
      omega

theorem fmtNat_head (n : Nat) : ∃ b rest, fmtNat n = b :: rest ∧ b ≠ UInt8.ofNat 45 := by
  induction n using Nat.strong_induction_on with
  | _ n ih =>
    by_cases h : n < 10
    · refine ⟨_, [], fmtNat_small n h, ?_⟩
      intro hb
      have := congrArg UInt8.toNat hb
      rw [digit_toNat n h] at this
      have h45 : (UInt8.ofNat 45).toNat = 45 := rfl
      omega
    · obtain ⟨b, rest, hb, hne⟩ := ih (n / 10) (Nat.div_lt_self (by omega) (by omega))
      exact ⟨b, rest ++ [UInt8.ofNat (48 + n % 10)], by rw [fmtNat_large n (by omega), hb]; rfl, hne⟩

theorem fmtInt_injective (a b : Int) (h : fmtInt a = fmtInt b) : a = b := by
  cases a with
  | ofNat n =>
    cases b with
    | ofNat m =>
      have := congrArg readNat h
      simp only [fmtInt, readNat_fmtNat] at this
      rw [this]
    | negSucc m =>
      obtain ⟨c, rest, hc, hne⟩ := fmtNat_head n
      simp only [fmtInt, hc, List.cons.injEq] at h
      exact absurd h.1 hne
  | negSucc n =>
    cases b with
    | ofNat m =>
      obtain ⟨c, rest, hc, hne⟩ := fmtNat_head m
      simp only [fmtInt, hc, List.cons.injEq] at h
      exact absurd h.1.symm hne
    | negSucc m =>
      simp only [fmtInt, List.cons.injEq, true_and] at h
      have := congrArg readNat h
      simp only [readNat_fmtNat] at this
      have : n = m := by omega
      rw [this]

theorem hasPrefix_iff (s p : GoString) : hasPrefix s p = true ↔ p <+: s := by
  induction p generalizing s with
  | nil => cases s <;> simp [hasPrefix]
  | cons d p ih =>
    cases s with
    | nil => simp [hasPrefix]
    | cons c s =>
      simp only [hasPrefix, Bool.and_eq_true, beq_iff_eq, ih, List.cons_prefix_cons]
      constructor
      · rintro ⟨h1, h2⟩; exact ⟨h1.symm, h2⟩
      · rintro ⟨h1, h2⟩; exact ⟨h1.symm, h2⟩

theorem stringsContains_iff (s sub : GoString) : stringsContains s sub = true ↔ sub <:+: s := by
  induction s with
  | nil =>
    simp only [stringsContains, hasPrefix_iff, List.prefix_nil, List.infix_nil]
  | cons c s ih =>
    simp only [stringsContains, Bool.or_eq_true, hasPrefix_iff, ih, List.infix_cons_iff]

theorem stringsJoin_eq_intercalate (elems : List GoString) (sep : GoString) :
    stringsJoin elems sep = sep.intercalate elems := by
  induction elems with
  | nil => rfl
  | cons e rest ih =>
    cases rest with
    | nil => simp [stringsJoin, List.intercalate]
    | cons f rest =>
      rw [stringsJoin, ih]
      simp [List.intercalate, List.intersperse]

theorem truncateString_some (s : GoString) (n : Int) (hn : 3 ≤ n) :
    ∃ r, truncateString s n = some r := by
  unfold truncateString
  by_cases h : (s.length : Int) ≤ n
  · exact ⟨s, by simp [h]⟩
  · have h3 : ¬ (n - 3 < 0) := by omega
    exact ⟨s.take (n - 3).toNat ++ lit "...", by simp only [h, h3, if_false]⟩

theorem runeWidth_pos (c : UInt8) (rest : GoString) : 1 ≤ runeWidth (c :: rest) := by
  unfold runeWidth
  simp only
  repeat' split
  all_goals omega

theorem runeCountFuel_le_length (fuel : Nat) (s : GoString) :
    runeCountFuel fuel s ≤ s.length := by
  induction fuel generalizing s with
  | zero => simp [runeCountFuel]
  | succ f ih =>
    cases s with
    | nil => simp [runeCountFuel]
    | cons c rest =>
      rw [runeCountFuel]
      have h1 := ih ((c :: rest).drop (runeWidth (c :: rest)))
      have h2 := runeWidth_pos c rest
      rw [List.length_drop] at h1
      have h3 : (c :: rest).length = rest.length + 1 := rfl
      omega

theorem runeCount_le_length (s : GoString) : runeCount s ≤ s.length :=
  runeCountFuel_le_length s.length s

/-- C5, amended. For the limits the loop uses (100 for the user text, 200 for the
answer), with every length counted in bytes as `len` does: `truncateString s limit`
returns a string of at most `limit` bytes, hence of at most `limit` characters;
when `s` has more than `limit` bytes it is the first `limit - 3` bytes of `s`
followed by `...` (so it ends with `...` and is exactly `limit` bytes long); when
`s` has at most `limit` bytes, also exactly `limit`, it is `s` itself. -/
theorem truncateString_limit (s : GoString) (limit : Int) (hl : limit = 100 ∨ limit = 200) :
    ∃ r, truncateString s limit = some r ∧ (r.length : Int) ≤ limit ∧
      (runeCount r : Int) ≤ limit ∧
      (limit < (s.length : Int) →
        r = s.take (limit - 3).toNat ++ lit "..." ∧ lit "..." <:+ r ∧ (r.length : Int) = limit) ∧
      ((s.length : Int) ≤ limit → r = s) := by
  have h3 : (lit "...").length = 3 := lit_ellipsis_length
  by_cases h : (s.length : Int) ≤ limit
  · have hr := runeCount_le_length s
    refine ⟨s, by simp [truncateString, h], h, by omega, fun hlt => absurd h (by omega),
      fun _ => rfl⟩
  · have hneg : ¬ (limit - 3 < 0) := by omega
    have hlen : ((s.take (limit - 3).toNat ++ lit "...").length : Int) = limit := by
      rw [List.length_append, List.length_take, h3]
      omega
    have hr := runeCount_le_length (s.take (limit - 3).toNat ++ lit "...")
    refine ⟨s.take (limit - 3).toNat ++ lit "...", by simp only [truncateString, h, hneg, if_false],
      by omega, by omega, fun _ => ⟨rfl, List.suffix_append _ _, hlen⟩, fun hle => absurd hle h⟩

/-- C5 amended, at concrete inputs: seven bytes under the limit 100 stay as they
are, and 101 bytes are cut to the first 97 followed by `...`. -/
theorem truncateString_limit_witness :
    truncateString (lit "What is") 100 = some (lit "What is") ∧
      truncateString longLine 100 =
        some (List.replicate 97 (UInt8.ofNat 97) ++ lit "...") := by
  obtain ⟨r1, h1, _, _, _, hfit⟩ := truncateString_limit (lit "What is") 100 (Or.inl rfl)
  obtain ⟨r2, h2, _, _, hcut, _⟩ := truncateString_limit longLine 100 (Or.inl rfl)
  rw [h1, h2, hfit (by decide), (hcut (by decide)).1]
  exact ⟨rfl, rfl⟩

/-- C5 as stated fails: sixty accented letters are 60 characters, within the
limit 100, yet `truncateString` cuts the string (it has 120 bytes), adds `...`,
and the cut falls inside a character: the last byte kept is the first byte of a
two-byte letter. -/
theorem truncateString_characters_counterexample :
    runeCount accented = 60 ∧ accented.length = 120 ∧
      truncateString accented 100 = some (accented.take 97 ++ lit "...") ∧
      truncateString accented 100 ≠ some accented ∧
      (accented.take 97).getLast? = some (UInt8.ofNat 195) ∧
      lit "é" = [UInt8.ofNat 195, UInt8.ofNat 169] := by
  refine ⟨by decide, by decide, by decide, by decide, by decide, by decide⟩

theorem foldl_streamingFunc (chunks : List GoString) (st : GenState) :
    chunks.foldl streamingFunc st =
      { fullResponse := st.fullResponse ++ chunks.flatten,
        isStreaming := st.isStreaming || !chunks.isEmpty } := by
  induction chunks generalizing st with
  | nil => simp
  | cons c cs ih =>
    rw [List.foldl_cons, ih]
    simp [streamingFunc]

/-- C6. When the backend call returns no error, `GenerateFromLLM` returns the
concatenation of the streamed chunks in arrival order, ignoring the returned
completion, as soon as one chunk was delivered; and it returns the completion
when no chunk was delivered. -/
theorem GenerateFromLLM_streamed_or_atomic (llm : GoString → LLMCall) (prompt : GoString)
    (hok : (llm prompt).err = none) :
    ((llm prompt).chunks ≠ [] →
        GenerateFromLLM llm prompt = Except.ok (llm prompt).chunks.flatten) ∧
      ((llm prompt).chunks = [] →
        GenerateFromLLM llm prompt = Except.ok (llm prompt).completion) := by
  unfold GenerateFromLLM
  simp only [hok, foldl_streamingFunc]
  constructor
  · intro hne
    cases hc : (llm prompt).chunks with
    | nil => exact absurd hc hne
    | cons c cs => simp
  · intro he
    simp [he]

theorem eachFrom_eachCallback (sels : List Selection) (i : Nat) (acc : List GoString) :
    eachFrom eachCallback i sels acc = acc ++ (sels.take (5 - i)).map resultBlock := by
  induction sels generalizing i acc with
  | nil => simp [eachFrom]
  | cons s rest ih =>
    rw [eachFrom, ih]
    by_cases h : i < 5
    · have h5 : 5 - i = (5 - (i + 1)) + 1 := by omega
      rw [h5, List.take_succ_cons]
      simp [eachCallback, h, resultBlock, Selection.text, Selection.attr]
    · have h5 : 5 - i = 0 := by omega
      have h6 : 5 - (i + 1) = 0 := by omega
      simp [eachCallback, h, h5, h6]

/-- C10. When the response has a status code other than 200, whatever its body,
`performSearchQuery` returns the error whose message is
`search request failed with status code: ` followed by that code in decimal (a
message no other code produces), and the only outside call it has made is the
request itself: the body is neither read nor parsed. -/
theorem performSearchQuery_bad_status (web : Web) (query : GoString) (resp : HttpResponse)
    (hreq : web.NewRequest (searchQueryURL web query) = none)
    (hdo : web.Do (searchQueryURL web query) = Except.ok resp)
    (hstatus : resp.StatusCode ≠ 200) :
    (performSearchQuery web query).result =
        Except.error (GoError.errorString
          (lit "search request failed with status code: " ++ fmtInt resp.StatusCode)) ∧
      (performSearchQuery web query).calls = [NetCall.clientDo (searchQueryURL web query)] ∧
      NetCall.readAll ∉ (performSearchQuery web query).calls ∧
      (∀ body, NetCall.newDocument body ∉ (performSearchQuery web query).calls) ∧
      (∀ code : Int,
        lit "search request failed with status code: " ++ fmtInt code =
          lit "search request failed with status code: " ++ fmtInt resp.StatusCode →
        code = resp.StatusCode) := by
  unfold searchQueryURL at hreq hdo
  have hrun : performSearchQuery web query =
      ⟨[NetCall.clientDo (searchQueryURL web query)],
        Except.error (GoError.errorString
          (lit "search request failed with status code: " ++ fmtInt resp.StatusCode))⟩ := by
    simp only [performSearchQuery, hreq, hdo]
    rw [if_pos hstatus]
    rfl
  rw [hrun]
  refine ⟨rfl, rfl, by simp, by simp, ?_⟩
  intro code h
  exact fmtInt_injective _ _ (List.append_cancel_left h)

/-- C10, at a concrete input: a 500 response. -/
theorem performSearchQuery_bad_status_witness :
    (performSearchQuery failingWeb (lit "go")).result =
        Except.error (GoError.errorString (lit "search request failed with status code: 500")) ∧
      (performSearchQuery failingWeb (lit "go")).calls =
        [NetCall.clientDo (lit "https://duckduckgo.com/html/?q=go")] :=
  have h := performSearchQuery_bad_status failingWeb (lit "go")
    ⟨500, Except.ok []⟩ rfl rfl (by decide)
  ⟨h.1, h.2.1⟩

/-- C3 as stated fails: a 403 response whose body contains `CAPTCHA` yields the
bad-status error, not the CAPTCHA error. -/
theorem captcha_any_status_counterexample :
    blockedWeb.Do (searchQueryURL blockedWeb (lit "go")) =
        Except.ok ⟨403, Except.ok (lit "<html>CAPTCHA</html>")⟩ ∧
      stringsContains (lit "<html>CAPTCHA</html>") (lit "CAPTCHA") = true ∧
      (performSearchQuery blockedWeb (lit "go")).result =
        Except.error (GoError.errorString (lit "search request failed with status code: 403")) ∧
      (performSearchQuery blockedWeb (lit "go")).result ≠
        Except.error (GoError.errorString (lit "CAPTCHA detected, unable to proceed")) := by
  refine ⟨rfl, by decide, by decide, by decide⟩

/-- C3, amended. When the response has status code 200 and its body, read in
full, contains `CAPTCHA`, `performSearchQuery` returns the error
`CAPTCHA detected, unable to proceed`, and the outside calls it has made are the
request and the read of the body: the body is never parsed. -/
theorem performSearchQuery_captcha (web : Web) (query : GoString) (resp : HttpResponse)
    (body : GoString)
    (hreq : web.NewRequest (searchQueryURL web query) = none)
    (hdo : web.Do (searchQueryURL web query) = Except.ok resp)
    (hstatus : resp.StatusCode = 200)
    (hbody : resp.Body = Except.ok body)
    (hcaptcha : stringsContains body (lit "CAPTCHA") = true) :
    (performSearchQuery web query).result =
        Except.error (GoError.errorString (lit "CAPTCHA detected, unable to proceed")) ∧
      (performSearchQuery web query).calls =
        [NetCall.clientDo (searchQueryURL web query), NetCall.readAll] ∧
      (∀ b, NetCall.newDocument b ∉ (performSearchQuery web query).calls) := by
  unfold searchQueryURL at hreq hdo
  have hrun : performSearchQuery web query =
      ⟨[NetCall.clientDo (searchQueryURL web query), NetCall.readAll],
        Except.error (GoError.errorString (lit "CAPTCHA detected, unable to proceed"))⟩ := by
    simp only [performSearchQuery, hreq, hdo, hstatus, hbody, hcaptcha, errorf, searchQueryURL]
    simp
  rw [hrun]
  exact ⟨rfl, rfl, by simp⟩

/-- C3 amended, at a concrete input: a 200 response with a CAPTCHA page. -/
theorem performSearchQuery_captcha_witness :
    (performSearchQuery captchaWeb (lit "go")).result =
        Except.error (GoError.errorString (lit "CAPTCHA detected, unable to proceed")) ∧
      (performSearchQuery captchaWeb (lit "go")).calls =
        [NetCall.clientDo (lit "https://duckduckgo.com/html/?q=go"), NetCall.readAll] :=
  have h := performSearchQuery_captcha captchaWeb (lit "go")
    ⟨200, Except.ok (lit "<html>CAPTCHA</html>")⟩ (lit "<html>CAPTCHA</html>")
    rfl rfl rfl rfl (by decide)
  ⟨h.1, h.2.1⟩

/-- C4. When the body of a 200 response is parsed into a document with `N` result
elements, `performSearchQuery` returns successfully; for `N = 0` the text is
`No results found.`, and otherwise it is the blocks
`Title: …\nLink: …\nSnippet: …\n` of the first `min N 5` elements, in document
order, joined by a newline, where a missing title, link or snippet is the empty
string.  Elements after the fifth do not occur in the text. -/
theorem performSearchQuery_results (web : Web) (query : GoString) (resp : HttpResponse)
    (body : GoString) (doc : Document)
    (hreq : web.NewRequest (searchQueryURL web query) = none)
    (hdo : web.Do (searchQueryURL web query) = Except.ok resp)
    (hstatus : resp.StatusCode = 200)
    (hbody : resp.Body = Except.ok body)
    (hcaptcha : stringsContains body (lit "CAPTCHA") = false)
    (hparse : web.NewDocumentFromReader body = Except.ok doc) :
    (performSearchQuery web query).result =
        Except.ok
          (if doc.resultBodies.length = 0 then lit "No results found."
           else stringsJoin
            ((doc.resultBodies.take 5).map fun s =>
              lit "Title: " ++ s.title.getD [] ++ lit "\nLink: " ++ s.href.getD [] ++
                lit "\nSnippet: " ++ s.snippet.getD [] ++ lit "\n")
            (lit "\n")) ∧
      ((doc.resultBodies.take 5).map fun s =>
          lit "Title: " ++ s.title.getD [] ++ lit "\nLink: " ++ s.href.getD [] ++
            lit "\nSnippet: " ++ s.snippet.getD [] ++ lit "\n").length =
        min doc.resultBodies.length 5 := by
  unfold searchQueryURL at hreq hdo
  refine ⟨?_, by rw [List.length_map, List.length_take, Nat.min_comm]⟩
  have hlen : ((doc.resultBodies.take 5).map resultBlock).length = 0 ↔
      doc.resultBodies.length = 0 := by
    rw [List.length_map, List.length_take]; omega
  simp only [performSearchQuery, hreq, hdo, hstatus, hbody, hcaptcha, hparse,
    eachFrom_eachCallback, List.nil_append, Nat.sub_zero]
  by_cases hN : doc.resultBodies.length = 0
  · simp [hN, hlen.2 hN]
  · have hN2 : ¬ ((doc.resultBodies.take 5).map resultBlock).length = 0 := fun h => hN (hlen.1 h)
    simp only [ne_eq, not_true_eq_false, if_false, Bool.false_eq_true, hN2, hN]
    rfl

/-- C4, at a concrete input: of six result elements the first five are rendered,
missing fields as empty strings. -/
theorem performSearchQuery_results_witness :
    (performSearchQuery resultsWeb (lit "go")).result =
      Except.ok (lit ("Title: T1\nLink: L1\nSnippet: S1\n\n" ++
        "Title: \nLink: L2\nSnippet: S2\n\n" ++
        "Title: T3\nLink: \nSnippet: S3\n\n" ++
        "Title: T4\nLink: L4\nSnippet: \n\n" ++
        "Title: T5\nLink: L5\nSnippet: S5\n")) :=
  (performSearchQuery_results resultsWeb (lit "go")
    ⟨200, Except.ok (lit "<html>results</html>")⟩ (lit "<html>results</html>") sixResults
    rfl rfl rfl rfl (by decide) rfl).1.trans (by decide)

theorem GenerateFromLLM_error (llm : GoString → LLMCall) (prompt : GoString) (err : GoError)
    (h : GenerateFromLLM llm prompt = Except.error err) :
    ∃ e, (llm prompt).err = some e ∧ err = errorfW (lit "LLM call failed: ") e := by
  unfold GenerateFromLLM at h
  cases he : (llm prompt).err with
  | none => simp [he] at h
  | some e =>
    simp only [he] at h
    exact ⟨e, rfl, (Except.error.inj h).symm⟩

theorem GenerateFromLLM_error_not_sentinel (llm : GoString → LLMCall) (prompt : GoString)
    (err : GoError) (h : GenerateFromLLM llm prompt = Except.error err) :
    err.eqDeadlineExceeded = false := by
  obtain ⟨e, _, rfl⟩ := GenerateFromLLM_error llm prompt err h
  rfl

theorem turn_search_error (lib : Lib) (cfg : ModelConfig)
    (searchTool : GoString → Except GoError GoString) (llm : GoString → LLMCall)
    (history : List GoString) (userInput : GoString) (err : GoError)
    (h : searchTool (effectiveInput history userInput) = Except.error err) :
    turn lib cfg searchTool llm history userInput =
      some ⟨[Event.searchCall (effectiveInput history userInput),
        Event.print (if stringsContains err.Error (lit "CAPTCHA") then captchaLine
          else searchFailedLine err)], history⟩ := by
  simp only [turn, h]
  split <;> rfl

theorem turn_llm_error (lib : Lib) (cfg : ModelConfig)
    (searchTool : GoString → Except GoError GoString) (llm : GoString → LLMCall)
    (history : List GoString) (userInput searchResult : GoString) (err : GoError)
    (hs : searchTool (effectiveInput history userInput) = Except.ok searchResult)
    (hg : GenerateFromLLM llm (buildPrompt (stringsJoin history (lit "\n"))
      (effectiveInput history userInput) searchResult) = Except.error err) :
    turn lib cfg searchTool llm history userInput =
      some ⟨turnPrefix history userInput searchResult ++ [Event.print (errorLine err)],
        history⟩ := by
  have hne := GenerateFromLLM_error_not_sentinel _ _ _ hg
  simp only [turn, hs, hg, hne]
  rfl

theorem turn_success (lib : Lib) (cfg : ModelConfig)
    (searchTool : GoString → Except GoError GoString) (llm : GoString → LLMCall)
    (history : List GoString) (userInput searchResult response : GoString)
    (hs : searchTool (effectiveInput history userInput) = Except.ok searchResult)
    (hg : GenerateFromLLM llm (buildPrompt (stringsJoin history (lit "\n"))
      (effectiveInput history userInput) searchResult) = Except.ok response) :
    ∃ u a, truncateString (effectiveInput history userInput) 100 = some u ∧
      truncateString response 200 = some a ∧
      turn lib cfg searchTool llm history userInput =
        some ⟨turnPrefix history userInput searchResult ++ [Event.print (response ++ lit "\n")],
          keepLastTen (history ++ [lit "User: " ++ u] ++ [lit "AI: " ++ a])⟩ := by
  obtain ⟨u, hu⟩ := truncateString_some (effectiveInput history userInput) 100 (by decide)
  obtain ⟨a, ha⟩ := truncateString_some response 200 (by decide)
  refine ⟨u, a, hu, ha, ?_⟩
  simp only [turn, hs, hg, hu, ha]
  rfl

theorem keepLastTen_length (history : List GoString) : (keepLastTen history).length ≤ 10 := by
  unfold keepLastTen
  split
  · rw [List.length_drop]; omega
  · omega

/-- Every turn ends, in one of three ways. -/
theorem turn_cases (lib : Lib) (cfg : ModelConfig)
    (searchTool : GoString → Except GoError GoString) (llm : GoString → LLMCall)
    (history : List GoString) (userInput : GoString) :
    (∃ err, searchTool (effectiveInput history userInput) = Except.error err ∧
      turn lib cfg searchTool llm history userInput =
        some ⟨[Event.searchCall (effectiveInput history userInput),
          Event.print (if stringsContains err.Error (lit "CAPTCHA") then captchaLine
            else searchFailedLine err)], history⟩) ∨
    (∃ searchResult err,
      searchTool (effectiveInput history userInput) = Except.ok searchResult ∧
      GenerateFromLLM llm (buildPrompt (stringsJoin history (lit "\n"))
        (effectiveInput history userInput) searchResult) = Except.error err ∧
      turn lib cfg searchTool llm history userInput =
        some ⟨turnPrefix history userInput searchResult ++ [Event.print (errorLine err)],
          history⟩) ∨
    (∃ searchResult response u a,
      searchTool (effectiveInput history userInput) = Except.ok searchResult ∧
      GenerateFromLLM llm (buildPrompt (stringsJoin history (lit "\n"))
        (effectiveInput history userInput) searchResult) = Except.ok response ∧
      truncateString (effectiveInput history userInput) 100 = some u ∧
      truncateString response 200 = some a ∧
      turn lib cfg searchTool llm history userInput =
        some ⟨turnPrefix history userInput searchResult ++ [Event.print (response ++ lit "\n")],
          keepLastTen (history ++ [lit "User: " ++ u] ++ [lit "AI: " ++ a])⟩) := by
  cases hs : searchTool (effectiveInput history userInput) with
  | error err => exact Or.inl ⟨err, rfl, turn_search_error lib cfg searchTool llm _ _ err hs⟩
  | ok searchResult =>
    cases hg : GenerateFromLLM llm (buildPrompt (stringsJoin history (lit "\n"))
        (effectiveInput history userInput) searchResult) with
    | error err =>
      exact Or.inr (Or.inl ⟨searchResult, err, rfl, hg,
        turn_llm_error lib cfg searchTool llm _ _ _ err hs hg⟩)
    | ok response =>
      obtain ⟨u, a, hu, ha, ht⟩ := turn_success lib cfg searchTool llm _ _ _ response hs hg
      exact Or.inr (Or.inr ⟨searchResult, response, u, a, rfl, hg, hu, ha, ht⟩)

theorem turn_history_length (lib : Lib) (cfg : ModelConfig)
    (searchTool : GoString → Except GoError GoString) (llm : GoString → LLMCall)
    (history : List GoString) (userInput : GoString) (hlen : history.length ≤ 10) :
    ∃ r, turn lib cfg searchTool llm history userInput = some r ∧ r.history.length ≤ 10 := by
  rcases turn_cases lib cfg searchTool llm history userInput with
    ⟨err, _, ht⟩ | ⟨sr, err, _, _, ht⟩ | ⟨sr, resp, u, a, _, _, _, _, ht⟩
  · exact ⟨_, ht, hlen⟩
  · exact ⟨_, ht, hlen⟩
  · exact ⟨_, ht, keepLastTen_length _⟩

theorem mainLoop_history_length (lib : Lib) (cfg : ModelConfig) (its : List Iteration)
    (st : LoopState) (hlen : st.history.length ≤ 10) :
    ∃ st1, mainLoop lib cfg its st = some st1 ∧ st1.history.length ≤ 10 := by
  induction its generalizing st with
  | nil => exact ⟨st, rfl, hlen⟩
  | cons it rest ih =>
    unfold mainLoop
    by_cases hq : lib.ToLower (lib.TrimSpace it.line) = lit "quit"
    · simp only [hq, if_true]
      exact ⟨_, rfl, hlen⟩
    · obtain ⟨r, hr, hrl⟩ :=
        turn_history_length lib cfg it.searchTool it.llm st.history (lib.TrimSpace it.line) hlen
      simp only [hq, if_false, hr]
      exact ih _ hrl

theorem mainLoop_cons (lib : Lib) (cfg : ModelConfig) (it : Iteration) (rest : List Iteration)
    (st : LoopState) :
    mainLoop lib cfg (it :: rest) st =
      if lib.ToLower (lib.TrimSpace it.line) = lit "quit" then
        some ⟨st.history, st.events ++ [Event.print enterLine], true⟩
      else
        match turn lib cfg it.searchTool it.llm st.history (lib.TrimSpace it.line) with
        | none => none
        | some r =>
          mainLoop lib cfg rest ⟨r.history, st.events ++ [Event.print enterLine] ++ r.events, false⟩ :=
  rfl

theorem mainLoop_append (lib : Lib) (cfg : ModelConfig) (xs ys : List Iteration)
    (st : LoopState) (hst : st.exited = false) :
    mainLoop lib cfg (xs ++ ys) st =
      match mainLoop lib cfg xs st with
      | none => none
      | some s => if s.exited then some s else mainLoop lib cfg ys s := by
  induction xs generalizing st with
  | nil => simp [mainLoop, hst]
  | cons it rest ih =>
    rw [List.cons_append, mainLoop_cons, mainLoop_cons]
    by_cases hq : lib.ToLower (lib.TrimSpace it.line) = lit "quit"
    · simp [hq]
    · simp only [hq, if_false]
      cases turn lib cfg it.searchTool it.llm st.history (lib.TrimSpace it.line) with
      | none => rfl
      | some r => exact ih ⟨r.history, _, false⟩ rfl

theorem mainLoop_single (lib : Lib) (cfg : ModelConfig) (it : Iteration) (st : LoopState)
    (r : TurnResult) (hq : lib.ToLower (lib.TrimSpace it.line) ≠ lit "quit")
    (ht : turn lib cfg it.searchTool it.llm st.history (lib.TrimSpace it.line) = some r) :
    mainLoop lib cfg [it] st =
      some ⟨r.history, st.events ++ [Event.print enterLine] ++ r.events, false⟩ := by
  simp only [mainLoop, hq, if_false, ht]

/-- C1. Started from the empty history, the loop of `main` holds at most 10
history entries after any number of passes, whatever the inputs and however each
turn ends.  And a turn whose search and completion both succeed leaves, when the
history extended by its two entries has more than 10 entries, exactly the last 10
entries of the extended history in their order (the extended history itself
otherwise). -/
theorem history_at_most_ten (lib : Lib) (cfg : ModelConfig) (its : List Iteration) :
    (∀ k, ∃ st, mainLoop lib cfg (its.take k) initState = some st ∧ st.history.length ≤ 10) ∧
    (∀ (searchTool : GoString → Except GoError GoString) (llm : GoString → LLMCall)
      (history : List GoString) (userInput searchResult response : GoString),
      searchTool (effectiveInput history userInput) = Except.ok searchResult →
      GenerateFromLLM llm (buildPrompt (stringsJoin history (lit "\n"))
        (effectiveInput history userInput) searchResult) = Except.ok response →
      ∃ r u a, turn lib cfg searchTool llm history userInput = some r ∧
        truncateString (effectiveInput history userInput) 100 = some u ∧
        truncateString response 200 = some a ∧
        (10 < (history ++ [lit "User: " ++ u, lit "AI: " ++ a]).length →
          r.history = (history ++ [lit "User: " ++ u, lit "AI: " ++ a]).drop
            ((history ++ [lit "User: " ++ u, lit "AI: " ++ a]).length - 10) ∧
          r.history.length = 10 ∧
          r.history <:+ history ++ [lit "User: " ++ u, lit "AI: " ++ a]) ∧
        ((history ++ [lit "User: " ++ u, lit "AI: " ++ a]).length ≤ 10 →
          r.history = history ++ [lit "User: " ++ u, lit "AI: " ++ a])) := by
  constructor
  · intro k
    exact mainLoop_history_length lib cfg (its.take k) initState (by decide)
  · intro searchTool llm history userInput searchResult response hs hg
    obtain ⟨u, a, hu, ha, ht⟩ :=
      turn_success lib cfg searchTool llm history userInput searchResult response hs hg
    refine ⟨_, u, a, ht, hu, ha, ?_, ?_⟩
    · intro hlong
      have hext : history ++ [lit "User: " ++ u] ++ [lit "AI: " ++ a] =
          history ++ [lit "User: " ++ u, lit "AI: " ++ a] := by simp
      have hk : keepLastTen (history ++ [lit "User: " ++ u] ++ [lit "AI: " ++ a]) =
          (history ++ [lit "User: " ++ u, lit "AI: " ++ a]).drop
            ((history ++ [lit "User: " ++ u, lit "AI: " ++ a]).length - 10) := by
        rw [hext]
        unfold keepLastTen
        rw [if_pos hlong]
      show keepLastTen _ = _ ∧ (keepLastTen _).length = 10 ∧ keepLastTen _ <:+ _
      rw [hk]
      refine ⟨rfl, ?_, List.drop_suffix _ _⟩
      rw [List.length_drop]
      omega
    · intro hshort
      have hext : history ++ [lit "User: " ++ u] ++ [lit "AI: " ++ a] =
          history ++ [lit "User: " ++ u, lit "AI: " ++ a] := by simp
      have hnot : ¬ (history ++ [lit "User: " ++ u, lit "AI: " ++ a]).length > 10 := by omega
      show keepLastTen _ = _
      rw [hext]
      unfold keepLastTen
      rw [if_neg hnot]

/-- C1, at a concrete input: after five exchanges a sixth successful turn evicts
the two oldest entries and keeps the last ten. -/
theorem history_at_most_ten_witness :
    ∃ r, turn plainLib config twoHitsTool goAnswer fullHistory (lit "q6") = some r ∧
      r.history.length = 10 ∧
      r.history.take 8 = fullHistory.drop 2 ∧
      r.history.drop 9 = [lit "AI: Go is a language."] := by
  obtain ⟨r, u, a, hr, hu, ha, hlong, _⟩ :=
    (history_at_most_ten plainLib config []).2 twoHitsTool goAnswer fullHistory (lit "q6")
      _ _ rfl rfl
  have ha2 : a = lit "Go is a language." := by
    have : truncateString (lit "Go is a language.") 200 = some a := ha
    exact (Option.some.inj this).symm
  have hlen : 10 < (fullHistory ++ [lit "User: " ++ u, lit "AI: " ++ a]).length := by
    simp [fullHistory]
  obtain ⟨h1, h2, _⟩ := hlong hlen
  refine ⟨r, hr, h2, ?_, ?_⟩
  · rw [h1]; simp [fullHistory]
  · rw [h1, ha2]; simp [fullHistory]; rfl

/-- C2. Every turn ends; a turn whose search returns an error, and a turn whose
search succeeds and whose completion returns an error, leave the history exactly
as it was; so a turn that changes the history is one where both succeeded. -/
theorem failed_turn_keeps_history (lib : Lib) (cfg : ModelConfig)
    (searchTool : GoString → Except GoError GoString) (llm : GoString → LLMCall)
    (history : List GoString) (userInput : GoString) :
    ∃ r, turn lib cfg searchTool llm history userInput = some r ∧
      (∀ err, searchTool (effectiveInput history userInput) = Except.error err →
        r.history = history) ∧
      (∀ searchResult err,
        searchTool (effectiveInput history userInput) = Except.ok searchResult →
        GenerateFromLLM llm (buildPrompt (stringsJoin history (lit "\n"))
          (effectiveInput history userInput) searchResult) = Except.error err →
        r.history = history) ∧
      (r.history ≠ history →
        ∃ searchResult response,
          searchTool (effectiveInput history userInput) = Except.ok searchResult ∧
          GenerateFromLLM llm (buildPrompt (stringsJoin history (lit "\n"))
            (effectiveInput history userInput) searchResult) = Except.ok response) := by
  rcases turn_cases lib cfg searchTool llm history userInput with
    ⟨err, hs, ht⟩ | ⟨sr, err, hs, hg, ht⟩ | ⟨sr, resp, u, a, hs, hg, _, _, ht⟩
  · refine ⟨_, ht, fun _ _ => rfl, fun _ _ _ _ => rfl, fun h => absurd rfl h⟩
  · refine ⟨_, ht, fun _ _ => rfl, fun _ _ _ _ => rfl, fun h => absurd rfl h⟩
  · refine ⟨_, ht, ?_, ?_, fun _ => ⟨sr, resp, hs, hg⟩⟩
    · intro err he
      rw [hs] at he
      exact Except.noConfusion he
    · intro sr2 err hs2 hg2
      rw [hs] at hs2
      cases hs2
      rw [hg] at hg2
      exact Except.noConfusion hg2

/-- C2, at concrete inputs: a CAPTCHA failure of the search and a failure of the
completion both leave a four-entry history as it was. -/
theorem failed_turn_keeps_history_witness :
    (turn plainLib config captchaTool goAnswer (fullHistory.take 4) (lit "q")).map
        TurnResult.history = some (fullHistory.take 4) ∧
      (turn plainLib config twoHitsTool timedOut (fullHistory.take 4) (lit "q")).map
        TurnResult.history = some (fullHistory.take 4) := by
  obtain ⟨r1, h1, hs1, _, _⟩ :=
    failed_turn_keeps_history plainLib config captchaTool goAnswer (fullHistory.take 4) (lit "q")
  obtain ⟨r2, h2, _, hg2, _⟩ :=
    failed_turn_keeps_history plainLib config twoHitsTool timedOut (fullHistory.take 4) (lit "q")
  rw [h1, h2, Option.map_some', Option.map_some', hs1 _ rfl, hg2 _ _ rfl rfl]
  exact ⟨rfl, rfl⟩

/-- C7. What the code does where the claim expects the timeout message: when the
search succeeds and the backend call ends with `context.DeadlineExceeded`, the
turn prints the generic line `Error: LLM call failed: context deadline exceeded`
and never the line `Operation timed out after … seconds`; the history is left
unchanged. -/
theorem deadline_exceeded_prints_generic_error (lib : Lib) (cfg : ModelConfig)
    (searchTool : GoString → Except GoError GoString) (llm : GoString → LLMCall)
    (history : List GoString) (userInput searchResult : GoString)
    (hs : searchTool (effectiveInput history userInput) = Except.ok searchResult)
    (hd : (llm (buildPrompt (stringsJoin history (lit "\n"))
      (effectiveInput history userInput) searchResult)).err = some GoError.deadlineExceeded) :
    ∃ r, turn lib cfg searchTool llm history userInput = some r ∧
      r.events = turnPrefix history userInput searchResult ++
        [Event.print (lit "Error: LLM call failed: context deadline exceeded\n")] ∧
      Event.print (timeoutLine lib cfg) ∉ r.events ∧
      r.history = history := by
  have hg : GenerateFromLLM llm (buildPrompt (stringsJoin history (lit "\n"))
      (effectiveInput history userInput) searchResult) =
      Except.error (errorfW (lit "LLM call failed: ") GoError.deadlineExceeded) := by
    simp only [GenerateFromLLM, hd]
  refine ⟨_, turn_llm_error lib cfg searchTool llm history userInput searchResult
    (errorfW (lit "LLM call failed: ") GoError.deadlineExceeded) hs hg, rfl, ?_, rfl⟩
  have hne1 : timeoutLine lib cfg ≠ lit "\nGenerating response...\n" := by
    intro h
    have := congrArg List.head? h
    exact absurd (Option.some.inj this) (by decide)
  have hne2 : timeoutLine lib cfg ≠
      errorLine (errorfW (lit "LLM call failed: ") GoError.deadlineExceeded) := by
    intro h
    have := congrArg List.head? h
    exact absurd (Option.some.inj this) (by decide)
  simp [turnPrefix, hne1, hne2]

/-- C7, at a concrete input: a first turn whose search returns two hits and whose
backend call ends with `context.DeadlineExceeded` prints the generic error line
as its last output, and stores nothing. -/
theorem deadline_exceeded_prints_generic_error_witness :
    ∃ r, turn plainLib config twoHitsTool timedOut [] (lit "What is Go?") = some r ∧
      r.events.getLast? =
        some (Event.print (lit "Error: LLM call failed: context deadline exceeded\n")) ∧
      Event.print (lit "Operation timed out after 120 seconds\n") ∉ r.events ∧
      r.history = [] := by
  obtain ⟨r, hr, hev, hno, hh⟩ := deadline_exceeded_prints_generic_error plainLib config
    twoHitsTool timedOut [] (lit "What is Go?") _ rfl rfl
  refine ⟨r, hr, ?_, ?_, hh⟩
  · rw [hev]; simp
  · intro hmem
    exact hno hmem

/-- C8. What the code stores: on a first turn (empty history) the input
`What is Go?` and the answer `Go is a language.` give the two entries
`User: What is Go?` and `AI: Go is a language.`, and the answer is printed in
full; on a turn with a history of two entries the stored User entry is not the
typed input but the joined history followed by the input. -/
theorem user_entry_holds_history_and_input (lib : Lib) (cfg : ModelConfig) :
    (turn lib cfg twoHitsTool goAnswer [] (lit "What is Go?")).map TurnResult.history =
        some [lit "User: What is Go?", lit "AI: Go is a language."] ∧
      ((turn lib cfg twoHitsTool goAnswer [] (lit "What is Go?")).map
        fun r => r.events.getLast?) = some (some (Event.print (lit "Go is a language.\n"))) ∧
      (turn lib cfg twoHitsTool goAnswer [lit "User: hi", lit "AI: hello"]
          (lit "What is Go?")).map TurnResult.history =
        some [lit "User: hi", lit "AI: hello",
          lit "User: User: hi\nAI: hello\nWhat is Go?", lit "AI: Go is a language."] ∧
      truncateString (lit "What is Go?") 100 = some (lit "What is Go?") := by
  exact ⟨rfl, rfl, rfl, rfl⟩

theorem turn_congr_searchTool (lib : Lib) (cfg : ModelConfig)
    (tool1 tool2 : GoString → Except GoError GoString) (llm : GoString → LLMCall)
    (history : List GoString) (userInput : GoString)
    (h : tool2 (effectiveInput history userInput) = tool1 (effectiveInput history userInput)) :
    turn lib cfg tool2 llm history userInput = turn lib cfg tool1 llm history userInput := by
  simp only [turn, h]

theorem effectiveInput_eq (history : List GoString) (userInput : GoString) :
    effectiveInput history userInput =
      if history = [] then userInput
      else stringsJoin history (lit "\n") ++ lit "\n" ++ userInput := by
  unfold effectiveInput
  cases history <;> simp

/-- C9. For a trimmed input that is not the quit command, let `query` be the
input itself when the history is empty and otherwise the history entries joined
by a newline, oldest first, followed by a newline and the input.  The pass
prints the prompt and then calls the search tool, once, with `query`; what the
pass does next is what the tool answers at `query`: on an error the pass ends
with the CAPTCHA line or the line carrying that error, on a result the backend
is called with the prompt built from that result; and the tool is consulted at
no other argument, a tool that agrees at `query` gives the same pass. -/
theorem search_query_is_history_then_input (lib : Lib) (cfg : ModelConfig) (it : Iteration)
    (st : LoopState) (hq : lib.ToLower (lib.TrimSpace it.line) ≠ lit "quit") :
    ∃ query st1 rest,
      query = (if st.history = [] then lib.TrimSpace it.line
        else stringsJoin st.history (lit "\n") ++ lit "\n" ++ lib.TrimSpace it.line) ∧
      mainLoop lib cfg [it] st = some st1 ∧
      st1.events = st.events ++ [Event.print enterLine, Event.searchCall query] ++ rest ∧
      (∀ other, Event.searchCall other ∉ rest) ∧
      (∀ err, it.searchTool query = Except.error err →
        rest = [Event.print (if stringsContains err.Error (lit "CAPTCHA") then captchaLine
          else searchFailedLine err)] ∧ st1.history = st.history) ∧
      (∀ searchResult, it.searchTool query = Except.ok searchResult →
        ∃ last, rest = [Event.print (lit "\nGenerating response...\n"),
          Event.llmCall (buildPrompt (stringsJoin st.history (lit "\n")) query searchResult),
          last]) ∧
      (∀ tool : GoString → Except GoError GoString, tool query = it.searchTool query →
        mainLoop lib cfg [{ it with searchTool := tool }] st = some st1) := by
  refine ⟨effectiveInput st.history (lib.TrimSpace it.line), ?_⟩
  have hcongr : ∀ (r : TurnResult),
      turn lib cfg it.searchTool it.llm st.history (lib.TrimSpace it.line) = some r →
      ∀ tool : GoString → Except GoError GoString,
        tool (effectiveInput st.history (lib.TrimSpace it.line)) =
          it.searchTool (effectiveInput st.history (lib.TrimSpace it.line)) →
        mainLoop lib cfg [{ it with searchTool := tool }] st =
          some ⟨r.history, st.events ++ [Event.print enterLine] ++ r.events, false⟩ := by
    intro r hr tool ht
    refine mainLoop_single lib cfg { it with searchTool := tool } st r hq ?_
    show turn lib cfg tool it.llm st.history (lib.TrimSpace it.line) = some r
    rw [turn_congr_searchTool lib cfg it.searchTool tool it.llm _ _ ht, hr]
  rcases turn_cases lib cfg it.searchTool it.llm st.history (lib.TrimSpace it.line) with
    ⟨err, hs, ht⟩ | ⟨sr, err, hs, hg, ht⟩ | ⟨sr, resp, u, a, hs, hg, _, _, ht⟩
  · refine ⟨_, [Event.print (if stringsContains err.Error (lit "CAPTCHA") then captchaLine
        else searchFailedLine err)],
      effectiveInput_eq _ _, mainLoop_single lib cfg it st _ hq ht, ?_, ?_, ?_, ?_, hcongr _ ht⟩
    · simp [enterLine]
    · simp
    · intro err2 he
      rw [hs] at he
      cases he
      exact ⟨rfl, rfl⟩
    · intro sr2 he
      rw [hs] at he
      exact Except.noConfusion he
  · refine ⟨_, [Event.print (lit "\nGenerating response...\n"),
        Event.llmCall (buildPrompt (stringsJoin st.history (lit "\n"))
          (effectiveInput st.history (lib.TrimSpace it.line)) sr),
        Event.print (errorLine err)],
      effectiveInput_eq _ _, mainLoop_single lib cfg it st _ hq ht, ?_, ?_, ?_, ?_, hcongr _ ht⟩
    · simp [enterLine, turnPrefix]
    · simp
    · intro err2 he
      rw [hs] at he
      exact Except.noConfusion he
    · intro sr2 he
      rw [hs] at he
      cases he
      exact ⟨_, rfl⟩
  · refine ⟨_, [Event.print (lit "\nGenerating response...\n"),
        Event.llmCall (buildPrompt (stringsJoin st.history (lit "\n"))
          (effectiveInput st.history (lib.TrimSpace it.line)) sr),
        Event.print (resp ++ lit "\n")],
      effectiveInput_eq _ _, mainLoop_single lib cfg it st _ hq ht, ?_, ?_, ?_, ?_, hcongr _ ht⟩
    · simp [enterLine, turnPrefix]
    · simp
    · intro err2 he
      rw [hs] at he
      exact Except.noConfusion he
    · intro sr2 he
      rw [hs] at he
      cases he
      exact ⟨_, rfl⟩

/-- C9, at a concrete input: with the two stored entries `User: hi` and
`AI: hello`, a tool that fails on everything but the joined query
`User: hi`, `AI: hello`, `What is Go?` is answered with its hits: the pass goes on
to call the backend with the prompt built from them, and prints the answer. -/
theorem search_query_is_history_then_input_witness :
    ∃ st1,
      mainLoop asciiLib config [joinedIteration]
        { history := [lit "User: hi", lit "AI: hello"], events := [], exited := false } =
          some st1 ∧
      st1.events = [Event.print enterLine,
        Event.searchCall (lit "User: hi\nAI: hello\nWhat is Go?"),
        Event.print (lit "\nGenerating response...\n"),
        Event.llmCall (buildPrompt (lit "User: hi\nAI: hello")
          (lit "User: hi\nAI: hello\nWhat is Go?") (lit "hits")),
        Event.print (lit "Go is a language.\n")] ∧
      joinedOnlyTool (lit "What is Go?") =
        Except.error (GoError.errorString (lit "unexpected query")) := by
  obtain ⟨query, st1, rest, hquery, h1, h2, _, _, hok, _⟩ :=
    search_query_is_history_then_input asciiLib config joinedIteration
      { history := [lit "User: hi", lit "AI: hello"], events := [], exited := false }
      (by decide)
  have hq2 : query = lit "User: hi\nAI: hello\nWhat is Go?" := by
    rw [hquery]; decide
  subst hq2
  obtain ⟨last, hrest⟩ := hok (lit "hits") (by decide)
  have hrun : mainLoop asciiLib config [joinedIteration]
      { history := [lit "User: hi", lit "AI: hello"], events := [], exited := false } =
      some ⟨[lit "User: hi", lit "AI: hello",
          lit "User: User: hi\nAI: hello\nWhat is Go?", lit "AI: Go is a language."],
        [Event.print enterLine,
          Event.searchCall (lit "User: hi\nAI: hello\nWhat is Go?"),
          Event.print (lit "\nGenerating response...\n"),
          Event.llmCall (buildPrompt (lit "User: hi\nAI: hello")
            (lit "User: hi\nAI: hello\nWhat is Go?") (lit "hits")),
          Event.print (lit "Go is a language.\n")], false⟩ := by
    rfl
  rw [hrun] at h1
  cases h1
  exact ⟨_, hrun, rfl, by decide⟩

/-- C6, at a concrete input: a backend that streams `A`, then `B`, and also
returns `AB` yields `AB`, not `ABAB`. -/
theorem GenerateFromLLM_streamed_or_atomic_witness :
    GenerateFromLLM streamAB [] = Except.ok (lit "AB") ∧
      GenerateFromLLM streamAB [] ≠ Except.ok (lit "ABAB") := by
  have h := (GenerateFromLLM_streamed_or_atomic streamAB [] rfl).1 (by decide)
  exact ⟨h, by rw [h]; decide⟩

end AIPoc
